import Mathlib

/-!
Verification development for the agentic grocery-tracker orchestration core.

The definitions below are a shallow embedding of the Python sources:
  - `src/agents/base.py`   (Task/Plan model, AgentMemory, AgenticBaseAgent)
  - `src/agents/manager.py` (AgenticAgentManager collaborative synthesis)
  - `src/agents/text_expense.py` (synthesis failure guard)
  - `src/tools/registry.py` (AgenticToolRegistry.execute_tool)

Python dictionaries appearing as JSON payloads are modelled by the `J`
inductive; Python strings are manipulated through `List Char` helpers that
mirror the semantics of `str.strip`, `str.find`, `str.rfind`,
`str.startswith` and slicing.  External effects (the Gemini oracle, the
concrete tools) are parameters of the embedded functions, exactly at the
call sites where the source invokes them.
-/

namespace Grocery

/-- Model of a Python/JSON value as produced by `json.loads` and carried in
`dict` payloads throughout the source. -/
inductive J where
  | null
  | bool (b : Bool)
  | num (q : ℚ)
  | str (s : String)
  | arr (xs : List J)
  | obj (fs : List (String × J))

/-- Python truthiness (`bool(x)`) for the modelled values: `None`, `False`,
`0`, the empty string, the empty list and the empty dict are falsy. -/
def J.truthy : J → Bool
  | .null => false
  | .bool b => b
  | .num q => !(q == 0)
  | .str s => !(s == "")
  | .arr xs => !xs.isEmpty
  | .obj fs => !fs.isEmpty

/-! ### Python string helpers over `List Char` -/

/-- Characters treated as whitespace by `str.strip()` / `json` (the subset
that occurs in the analysed data). -/
def isWs (c : Char) : Bool :=
  c == ' ' || c == '\t' || c == '\n' || c == '\r'

/-- `str.strip()`: drop leading and trailing whitespace. -/
def pyStripChars (cs : List Char) : List Char :=
  ((cs.dropWhile isWs).reverse.dropWhile isWs).reverse

def pyStrip (s : String) : String :=
  ⟨pyStripChars s.data⟩

/-- Index of the first occurrence of `c` (Python `str.find`, `none` for -1). -/
def pyFindChar (cs : List Char) (c : Char) : Option Nat :=
  cs.findIdx? (· == c)

/-- Index of the last occurrence of `c` (Python `str.rfind`, `none` for -1). -/
def pyRFindChar (cs : List Char) (c : Char) : Option Nat :=
  (pyFindChar cs.reverse c).map (fun i => cs.length - 1 - i)

/-- `str.startswith`: the second list is a prefix of the first. -/
def startsWithPy : List Char → List Char → Bool
  | _, [] => true
  | [], _ :: _ => false
  | c :: cs, d :: ds => c == d && startsWithPy cs ds

def strStartsWith (s p : String) : Bool :=
  startsWithPy s.data p.data

/-- `text.split()` on whitespace, dropping empty words. -/
def pyWords (s : String) : List String :=
  ((s.data.splitOnP isWs).map (fun cs => (⟨cs⟩ : String))).filter (fun w => !(w == ""))

/-! ### Python dict helpers (association lists, insertion order kept) -/

/-- `d[k] = v`: replace the binding if the key is present, else append. -/
def dictSet (d : List (String × J)) (k : String) (v : J) : List (String × J) :=
  if d.any (fun p => p.1 == k) then
    d.map (fun p => if p.1 == k then (k, v) else p)
  else
    d ++ [(k, v)]

/-- `base.update(upd)`: bindings of `upd` win over bindings of `base`. -/
def dictUpdate (base upd : List (String × J)) : List (String × J) :=
  upd.foldl (fun acc p => dictSet acc p.1 p.2) base

/-- `d.get(k)` (first binding; dicts built through `dictSet` have unique keys). -/
def dGet (d : List (String × J)) (k : String) : Option J :=
  (d.find? (fun p => p.1 == k)).map (fun p => p.2)

/-- Last binding for `k`; on dicts with unique keys this agrees with `dGet`
and is the value that survives a `dict.update`. -/
def dGetLast (d : List (String × J)) (k : String) : Option J :=
  (d.reverse.find? (fun p => p.1 == k)).map (fun p => p.2)

/-! ### A `str()` rendering for modelled values

Used only where the source calls `str(...)` on a payload (the size
heuristic of the collaborative synthesis).  Strings render with Python
repr quotes inside containers; rational numbers that are not integers
render as `num/den`, an inessential approximation of float formatting
that no analysed claim depends on.  Fuel-based so that it reduces. -/

def quoteChar : String := String.singleton (Char.ofNat 39)

def renderNum (q : ℚ) : String :=
  if q.den = 1 then toString q.num else toString q.num ++ "/" ++ toString q.den

mutual

/-- Python `repr(x)` for the modelled values (strings carry quotes). -/
def reprJ : J → String
  | .null => "None"
  | .bool b => if b then "True" else "False"
  | .num q => renderNum q
  | .str s => quoteChar ++ s ++ quoteChar
  | .arr xs => "[" ++ String.intercalate ", " (reprArr xs) ++ "]"
  | .obj fs => "\x7b" ++ String.intercalate ", " (reprObj fs) ++ "\x7d"

def reprArr : List J → List String
  | [] => []
  | x :: xs => reprJ x :: reprArr xs

def reprObj : List (String × J) → List String
  | [] => []
  | (k, v) :: fs => (quoteChar ++ k ++ quoteChar ++ ": " ++ reprJ v) :: reprObj fs

end

/-- Python `str(x)`: a bare string renders without quotes. -/
def pyStr : J → String
  | .str s => s
  | v => reprJ v

/-- Python `str(x or "")` for an optional payload: `None` and falsy values
collapse to the empty string (`x["result"].data or ""`). -/
def pyStrOrEmpty : Option J → String
  | none => ""
  | some v => if v.truthy then pyStr v else ""

/-! ### `json.loads`

A recursive-descent decoder for the JSON fragment exchanged with the
oracle: objects, arrays, strings (with the common escapes; `\uXXXX` is
not produced on any analysed path), numbers with optional fraction and
exponent, `true`, `false`, `null`.  Duplicate object keys keep the last
binding, as in CPython.  Nesting is bounded by fuel; every nesting level
consumes at least one character, so fuel `length + 1` always suffices. -/

def isDigitCh (c : Char) : Bool := '0' ≤ c && c ≤ '9'

def digitsToNat (ds : List Char) : Nat :=
  ds.foldl (fun a c => a * 10 + (c.toNat - 48)) 0

def parseDigits (cs : List Char) : Option (List Char × List Char) :=
  let ds := cs.takeWhile isDigitCh
  if ds.isEmpty then none else some (ds, cs.drop ds.length)

def parseNumber (cs : List Char) : Option (ℚ × List Char) :=
  let (neg, cs₁) := match cs with
    | '-' :: rest => (true, rest)
    | _ => (false, cs)
  match parseDigits cs₁ with
  | none => none
  | some (ints, cs₂) =>
    let (fr, cs₃) : List Char × List Char :=
      match cs₂ with
      | '.' :: rest =>
        match parseDigits rest with
        | some (ds, r) => (ds, r)
        | none => ([], '.' :: rest)
      | _ => ([], cs₂)
    if cs₂ ≠ cs₃ ∧ fr = [] then none else
    let (expOk, expNeg, expDs, cs₄) : Bool × Bool × List Char × List Char :=
      match cs₃ with
      | 'e' :: '-' :: rest => (true, true, (rest.takeWhile isDigitCh), rest.drop (rest.takeWhile isDigitCh).length)
      | 'E' :: '-' :: rest => (true, true, (rest.takeWhile isDigitCh), rest.drop (rest.takeWhile isDigitCh).length)
      | 'e' :: '+' :: rest => (true, false, (rest.takeWhile isDigitCh), rest.drop (rest.takeWhile isDigitCh).length)
      | 'E' :: '+' :: rest => (true, false, (rest.takeWhile isDigitCh), rest.drop (rest.takeWhile isDigitCh).length)
      | 'e' :: rest => (true, false, (rest.takeWhile isDigitCh), rest.drop (rest.takeWhile isDigitCh).length)
      | 'E' :: rest => (true, false, (rest.takeWhile isDigitCh), rest.drop (rest.takeWhile isDigitCh).length)
      | _ => (false, false, [], cs₃)
    if expOk ∧ expDs = [] then none else
    let base : ℚ := (digitsToNat ints : ℚ) +
      (digitsToNat fr : ℚ) / ((10 : ℚ) ^ fr.length)
    let scaled : ℚ :=
      if !expOk then base
      else if expNeg then base / ((10 : ℚ) ^ digitsToNat expDs)
      else base * ((10 : ℚ) ^ digitsToNat expDs)
    some (if neg then -scaled else scaled, cs₄)

/-- Body of a JSON string after the opening quote; returns the decoded
characters and the remainder after the closing quote. -/
def parseStrBody : List Char → Option (List Char × List Char)
  | [] => none
  | '"' :: rest => some ([], rest)
  | '\\' :: e :: rest =>
    match (match e with
           | '"' => some '"'
           | '\\' => some '\\'
           | '/' => some '/'
           | 'n' => some '\n'
           | 't' => some '\t'
           | 'r' => some '\r'
           | 'b' => some (Char.ofNat 8)
           | 'f' => some (Char.ofNat 12)
           | _ => none) with
    | none => none
    | some c => (parseStrBody rest).map (fun p => (c :: p.1, p.2))
  | c :: rest => (parseStrBody rest).map (fun p => (c :: p.1, p.2))

def skipWs (cs : List Char) : List Char := cs.dropWhile isWs

mutual

def parseVal : Nat → List Char → Option (J × List Char)
  | 0, _ => none
  | n + 1, cs =>
    match skipWs cs with
    | '{' :: rest => parseObjRest n (skipWs rest) []
    | '[' :: rest => parseArrRest n (skipWs rest) []
    | '"' :: rest => (parseStrBody rest).map (fun p => (.str ⟨p.1⟩, p.2))
    | 't' :: 'r' :: 'u' :: 'e' :: rest => some (.bool true, rest)
    | 'f' :: 'a' :: 'l' :: 's' :: 'e' :: rest => some (.bool false, rest)
    | 'n' :: 'u' :: 'l' :: 'l' :: rest => some (.null, rest)
    | cs' => (parseNumber cs').map (fun p => (.num p.1, p.2))

/-- Object members following `{` (any leading whitespace already skipped). -/
def parseObjRest : Nat → List Char → List (String × J) → Option (J × List Char)
  | _, '}' :: rest, [] => some (.obj [], rest)
  | 0, _, _ => none
  | n + 1, cs, acc =>
    match skipWs cs with
    | '"' :: rest =>
      match parseStrBody rest with
      | none => none
      | some (kcs, afterKey) =>
        match skipWs afterKey with
        | ':' :: afterColon =>
          match parseVal n afterColon with
          | none => none
          | some (v, afterVal) =>
            let acc' := dictSet acc ⟨kcs⟩ v
            match skipWs afterVal with
            | ',' :: afterComma => parseObjRest n (skipWs afterComma) acc'
            | '}' :: rest' => some (.obj acc', rest')
            | _ => none
        | _ => none
    | _ => none

/-- Array elements following `[` (any leading whitespace already skipped). -/
def parseArrRest : Nat → List Char → List J → Option (J × List Char)
  | _, ']' :: rest, [] => some (.arr [], rest)
  | 0, _, _ => none
  | n + 1, cs, acc =>
    match parseVal n cs with
    | none => none
    | some (v, afterVal) =>
      match skipWs afterVal with
      | ',' :: afterComma => parseArrRest n afterComma (acc ++ [v])
      | ']' :: rest' => some (.arr (acc ++ [v]), rest')
      | _ => none

end

/-- `json.loads`: decode a complete document, rejecting trailing garbage. -/
def jsonLoads (s : String) : Option J :=
  match parseVal (s.length + 1) s.data with
  | none => none
  | some (v, rest) => if (skipWs rest).isEmpty then some v else none

/-! ### Task / Plan model (`src/agents/base.py`, `TaskType`, `Task`, `Plan`) -/

/-- `TaskType(Enum)`: the six task kinds. -/
inductive TaskType where
  | analyze | extract | process | save | validate | reason
  deriving DecidableEq

/-- `TaskType(value)`: succeeds exactly on the six enum value strings and
raises `ValueError` (here `none`) on everything else, including
non-string values. -/
def TaskType.ofValue? : J → Option TaskType
  | .str "analyze" => some .analyze
  | .str "extract" => some .extract
  | .str "process" => some .process
  | .str "save" => some .save
  | .str "validate" => some .validate
  | .str "reason" => some .reason
  | _ => none

/-- A task's `result` attribute: a tool's textual output, or the `data`
payload of a reasoning task's `AgentResult`. -/
inductive ResVal where
  | rstr (s : String)
  | rdata (j : J)

/-- Python truthiness of a task result (`None` is falsy). -/
def resTruthy : Option ResVal → Bool
  | none => false
  | some (.rstr s) => !(s == "")
  | some (.rdata j) => j.truthy

/-- `@dataclass Task`.  Field types follow the dataclass annotations
(`id: str`, `dependencies: List[str]`, ...); JSON-derived values outside
those annotations, which no analysed execution path produces, are coerced
during parsing (see `buildTask`). -/
structure Task where
  id : String
  type : TaskType
  description : String
  tool_name : Option String := none
  parameters : List (String × J) := []
  dependencies : List String := []
  status : String := "pending"
  result : Option ResVal := none
  confidence : ℚ := 1

/-- The planning context assembled by `analyze_input`: the determined
`input_type` plus the `input_data` kwargs consulted by the claims
(`text`, `image_data`, `message_date`).  Agent-specific analysis fields
are not consulted by any embedded function. -/
structure Ctx where
  input_type : String
  text : Option String := none
  image_data : Option String := none
  message_date : Option String := none

/-- `@dataclass Plan` (timestamps are opaque strings). -/
structure Plan where
  id : String
  goal : String
  tasks : List Task := []
  context : Ctx
  created_at : String := ""
  status : String := "created"

/-- Ids of the completed tasks (`completed_task_ids`; a Python set that is
only ever queried for membership, modelled as the list of ids). -/
def completedIds (tasks : List Task) : List String :=
  (tasks.filter (fun t => t.status == "completed")).map (fun t => t.id)

/-- `Plan.get_next_tasks`: pending tasks all of whose dependencies are
completed, in plan order.  The source accumulates into `ready_tasks` while
iterating `self.tasks`; this is the corresponding filter.  The embedding
is a pure function of the plan, so determinism, idempotence and absence
of mutation hold by construction. -/
def Plan.get_next_tasks (p : Plan) : List Task :=
  p.tasks.filter (fun t =>
    t.status == "pending" &&
    t.dependencies.all (fun d => (completedIds p.tasks).contains d))

/-- `Plan.is_complete`: every task's status is in `["completed", "skipped"]`. -/
def Plan.is_complete (p : Plan) : Bool :=
  p.tasks.all (fun t => ["completed", "skipped"].contains t.status)

/-- `Plan.has_failed`: some task's status is `"failed"`. -/
def Plan.has_failed (p : Plan) : Bool :=
  p.tasks.any (fun t => t.status == "failed")

/-! ### AgentResult (`src/models/base.py`) -/

/-- `@dataclass AgentResult`. -/
structure AgentResult where
  success : Bool
  message : String
  data : Option J := none
  error : Option String := none

/-! ### Agent memory (`AgentMemory` in `src/agents/base.py`) -/

/-- One entry of `AgentMemory.experiences`.  The stored context snapshot is
represented by its key set, the only part any embedded function consults. -/
structure Experience where
  timestamp : String
  ctxKeys : Finset String
  plan_id : String
  goal : String
  tasks_count : ℕ
  success : Bool
  result : Option String

/-- `@dataclass AgentMemory`.  The two pattern counters are Python dicts
read through `.get(key, 0)`; they are modelled extensionally as total
count maps. -/
structure AgentMemory where
  experiences : List Experience := []
  successful_patterns : String → ℕ := fun _ => 0
  failed_patterns : String → ℕ := fun _ => 0

/-- `AgentMemory.remember_experience`. -/
def remember_experience (now : String) (ctxKeys : Finset String) (plan : Plan)
    (r : AgentResult) (m : AgentMemory) : AgentMemory :=
  let exp : Experience :=
    { timestamp := now
      ctxKeys := ctxKeys
      plan_id := plan.id
      goal := plan.goal
      tasks_count := plan.tasks.length
      success := r.success
      result := if r.success then some r.message else r.error }
  let patternKey := plan.goal ++ "_" ++ toString plan.tasks.length ++ "_tasks"
  if r.success then
    { experiences := m.experiences ++ [exp]
      successful_patterns := fun k =>
        if k = patternKey then m.successful_patterns k + 1 else m.successful_patterns k
      failed_patterns := m.failed_patterns }
  else
    { experiences := m.experiences ++ [exp]
      successful_patterns := m.successful_patterns
      failed_patterns := fun k =>
        if k = patternKey then m.failed_patterns k + 1 else m.failed_patterns k }

/-- The similarity computed inside `get_similar_experiences`:
`len(a & b) / len(a | b)`.  The division raises `ZeroDivisionError` when
both key sets are empty, modelled as `none`. -/
def simVal (a b : Finset String) : Option ℚ :=
  if (a ∪ b).card = 0 then none
  else some (((a ∩ b).card : ℚ) / ((a ∪ b).card : ℚ))

/-- `AgentMemory.get_similar_experiences`: score every experience, keep
those with similarity strictly above `0.3`, sort descending (Python's
stable `sort(reverse=True)`), return the first `limit`.  `.error ()`
models the `ZeroDivisionError` that propagates when some stored
experience makes the union of key sets empty. -/
def get_similar_experiences (ctxKeys : Finset String) (m : AgentMemory)
    (limit : ℕ := 5) : Except Unit (List Experience) :=
  if m.experiences.any (fun e => (ctxKeys ∪ e.ctxKeys).card = 0) then .error ()
  else
    let scored := m.experiences.filterMap (fun e =>
      match simVal ctxKeys e.ctxKeys with
      | some s => if s > 3/10 then some (s, e) else none
      | none => none)
    let sorted := scored.mergeSort (fun x y => decide (y.1 ≤ x.1))
    .ok ((sorted.take limit).map (fun p => p.2))

/-! ### Planning (`AgenticBaseAgent` in `src/agents/base.py`) -/

/-- `_create_fallback_plan`: the deterministic fallback template, selected
by the context's `input_type`. -/
def create_fallback_plan (now : String) (ctx : Ctx) : Plan :=
  let base : Plan :=
    { id := "fallback_plan_" ++ now
      goal := "Process input using fallback strategy"
      context := ctx
      created_at := now }
  if ctx.input_type == "image" then
    { base with tasks :=
      [ { id := "task_1"
          type := .extract
          description := "Extract data from receipt image"
          tool_name := some "process_receipt"
          parameters := [("image_data", match ctx.image_data with
                          | some s => .str s
                          | none => .null)]
          dependencies := []
          confidence := 8/10 }
      , { id := "task_2"
          type := .save
          description := "Save extracted data to sheets"
          tool_name := some "save_to_sheets"
          parameters := []
          dependencies := ["task_1"]
          confidence := 9/10 } ] }
  else if ctx.input_type == "text" then
    { base with tasks :=
      [ { id := "task_1"
          type := .extract
          description := "Extract expense data from text"
          tool_name := some "extract_text_expense"
          parameters := [("text", match ctx.text with
                          | some s => .str s
                          | none => .null)]
          dependencies := []
          confidence := 8/10 }
      , { id := "task_2"
          type := .save
          description := "Save extracted data to sheets"
          tool_name := some "save_to_sheets"
          parameters := []
          dependencies := ["task_1"]
          confidence := 9/10 } ] }
  else
    { base with tasks :=
      [ { id := "task_1"
          type := .process
          description := "Process input data"
          tool_name := none
          parameters := []
          dependencies := []
          confidence := 5/10 } ] }

/-- The static string returned by `_get_fallback_plan_json` (the source's
triple-quoted literal, including its indentation). -/
def fallbackPlanJson : String :=
  "\n        \x7b\n            \"goal\": \"Process input using fallback strategy\",\n            \"tasks\": [\n                \x7b\n                    \"id\": \"task_1\",\n                    \"type\": \"extract\",\n                    \"description\": \"Extract data from input\",\n                    \"tool_name\": null,\n                    \"parameters\": \x7b\x7d,\n                    \"dependencies\": [],\n                    \"confidence\": 0.7\n                \x7d\n            ]\n        \x7d\n        "

/-- `_call_planning_ai`: an exception, an empty/whitespace response or an
`Error`-prefixed response all degrade to the static fallback JSON.  The
oracle call is the parameter: `.error` models a raising call,
`.ok` a returned text (per `GeminiService.call`, transport failures
surface as `Error`-prefixed text). -/
def call_planning_ai (oracleResp : Except String String) : String :=
  match oracleResp with
  | .error _ => fallbackPlanJson
  | .ok r =>
    if pyStrip r == "" then fallbackPlanJson
    else if strStartsWith r "Error" then fallbackPlanJson
    else r

/-- Construction of one `Task` from a decoded task entry, mirroring the
`Task(...)` call in `_parse_plan_response`; `idx` is `len(plan.tasks)`
at that point.  `none` models an exception (a non-dict entry, or
`TaskType(...)` raising `ValueError`), which the caller turns into the
fallback plan.  Values outside the dataclass annotations
(non-string ids/descriptions, non-dict parameters, non-list
dependencies, non-numeric confidence), which no analysed path produces,
are coerced via `pyStr` / defaults. -/
def buildTask (idx : ℕ) : J → Option Task
  | .obj td =>
    let type? : Option TaskType :=
      match dGet td "type" with
      | none => some .process
      | some v => TaskType.ofValue? v
    match type? with
    | none => none
    | some ty => some
      { id := match dGet td "id" with
              | some v => pyStr v
              | none => "task_" ++ toString (idx + 1)
        type := ty
        description := match dGet td "description" with
                       | some v => pyStr v
                       | none => "Process data"
        tool_name := match dGet td "tool_name" with
                     | some (.str s) => some s
                     | some .null => none
                     | none => none
                     | some v => some (pyStr v)
        parameters := match dGet td "parameters" with
                      | some (.obj o) => o
                      | _ => []
        dependencies := match dGet td "dependencies" with
                        | some (.arr xs) => xs.map pyStr
                        | _ => []
        status := "pending"
        result := none
        confidence := match dGet td "confidence" with
                      | some (.num q) => q
                      | some (.bool b) => if b then 1 else 0
                      | _ => 1 }
  | _ => none

/-- The `for task_data in plan_data.get("tasks", [])` loop; `none` models
an exception escaping the loop (handled as the fallback plan — partially
appended tasks are discarded with the plan object). -/
def buildTasks : List J → ℕ → Option (List Task)
  | [], _ => some []
  | it :: rest, n =>
    match buildTask n it with
    | none => none
    | some t => (buildTasks rest (n + 1)).map (fun ts => t :: ts)

/-- The value iterated by the task loop.  A non-iterable (`number`,
`true`, ...) raises `TypeError`; iterating a non-empty string or dict
yields elements without `.get`, raising `AttributeError` on the first
one; the empty string and the empty dict iterate zero times. -/
def taskItems? : Option J → Option (List J)
  | some (.arr xs) => some xs
  | none => some []
  | some (.str "") => some []
  | some (.obj []) => some []
  | some _ => none

/-- `_parse_plan_response`: locate the `{...}` substring, decode it, build
the plan; every failure mode collapses to `_create_fallback_plan`. -/
def parse_plan_response (now : String) (response : String) (ctx : Ctx) : Plan :=
  if pyStrip response == "" then create_fallback_plan now ctx
  else
    let cleaned := (pyStrip response).data
    match pyFindChar cleaned '{', pyRFindChar cleaned '}' with
    | some js, some jl =>
      if jl + 1 ≤ js then create_fallback_plan now ctx
      else
        let jsonStr : String := ⟨(cleaned.drop js).take (jl + 1 - js)⟩
        match jsonLoads jsonStr with
        | none => create_fallback_plan now ctx
        | some (.obj fields) =>
          let goal := match dGet fields "goal" with
                      | some v => pyStr v
                      | none => "Process input intelligently"
          match taskItems? (dGet fields "tasks") with
          | none => create_fallback_plan now ctx
          | some items =>
            match buildTasks items 0 with
            | none => create_fallback_plan now ctx
            | some ts =>
              { id := "plan_" ++ now
                goal := goal
                tasks := ts
                context := ctx
                created_at := now }
        | some _ => create_fallback_plan now ctx
    | _, _ => create_fallback_plan now ctx

/-- `create_plan`: query memory for similar experiences (their only effect
is on the prompt text, which is abstracted into the oracle response
parameter), call the planning oracle, parse.  The memory query's
`ZeroDivisionError` is the one exception that can escape. -/
def create_plan (now : String) (ctxKeys : Finset String) (m : AgentMemory)
    (ctx : Ctx) (oracleResp : Except String String) : Except Unit Plan :=
  match get_similar_experiences ctxKeys m with
  | .error e => .error e
  | .ok _ => .ok (parse_plan_response now (call_planning_ai oracleResp) ctx)

/-! ### Tool registry (`AgenticToolRegistry.execute_tool` in
`src/tools/registry.py`) -/

/-- The registered tools: a name lookup returning, for a registered tool,
its `execute` behaviour on the given named parameters — `.ok` a returned
string, `.error` a raised exception (carrying `str(e)`). -/
def ToolMap : Type :=
  String → Option (List (String × J) → Except String String)

/-- `execute_tool`: the registry boundary.  The outer `Except` models
whether the *method itself* raises; its body never does — an unknown name
and a raising tool are both converted to `Error`-prefixed strings. -/
def execute_tool (tools : ToolMap) (name : String)
    (args : List (String × J)) : Except String String :=
  match tools name with
  | none => .ok ("Error: Tool " ++ quoteChar ++ name ++ quoteChar ++ " not found")
  | some exec =>
    match exec args with
    | .ok r => .ok r
    | .error e => .ok ("Error executing tool " ++ name ++ ": " ++ e)

/-- The string actually handed back to the agent. -/
def execute_tool_str (tools : ToolMap) (name : String)
    (args : List (String × J)) : String :=
  match execute_tool tools name args with
  | .ok r => r
  | .error e => e

/-! ### Task execution (`AgenticBaseAgent.execute_task` /
`execute_plan` / `adapt_plan`) -/

/-- The first completed, truthy, non-`Error` *string* result while
scanning the plan's tasks in order — the `for prev_task ...: ... break`
loop of `execute_task` (the `break` sits inside the inner `isinstance`
test, so non-string or `Error`-prefixed results are scanned past). -/
def firstGoodResult (tasks : List Task) : Option String :=
  (tasks.find? (fun t =>
    t.status == "completed" &&
    (match t.result with
     | some (.rstr s) => !(s == "") && !(strStartsWith s "Error")
     | _ => false))).bind (fun t =>
      match t.result with
      | some (.rstr s) => some s
      | _ => none)

/-- Parameter assembly of `execute_task`: convention-filled values by tool
name, then `tool_params.update(task.parameters)` so the task's declared
parameters win on key conflicts. -/
def assembleToolParams (toolName : String) (ctx : Ctx) (planTasks : List Task)
    (declared : List (String × J)) : List (String × J) :=
  let base : List (String × J) :=
    if toolName == "process_receipt" then
      match ctx.image_data with
      | some s => if s == "" then [] else [("image_data", .str s)]
      | none => []
    else if toolName == "extract_text_expense" then
      match ctx.text with
      | some s => if s == "" then [] else [("text", .str s)]
      | none => []
    else if toolName == "save_to_sheets" then
      (match ctx.message_date with
       | some s => if s == "" then [] else [("message_date", .str s)]
       | none => []) ++
      (match firstGoodResult planTasks with
       | some r => [("expense_data", .str r)]
       | none => [])
    else []
  dictUpdate base declared

/-- Trace entry recorded by the embedding for every executed task: the
assembled parameters and the tool's textual outcome, in execution order.
(The source does not materialise this trace; it is the observation
needed to state ordering properties of a run.) -/
structure ExecEntry where
  taskId : String
  params : List (String × J)
  success : Bool
  result : String

/-- Replace the plan's task carrying the given id (object mutation in the
source; task ids are unique per plan on every analysed path). -/
def Plan.setTask (p : Plan) (t : Task) : Plan :=
  { p with tasks := p.tasks.map (fun u => if u.id == t.id then t else u) }

/-- `execute_task` for a tool-bound task: assemble parameters, call the
registry, set status/result from the `Error`-prefix convention.  For a
task with no bound tool the agent-specific `execute_reasoning_task` is
called; it is a parameter (`reason`) of the embedding, as in the source
it is an abstract method of the agent subclass. -/
def runTask (tools : ToolMap) (reason : Task → Ctx → AgentResult)
    (ctx : Ctx) (p : Plan) (t : Task) : Plan × AgentResult × ExecEntry :=
  match t.tool_name with
  | some toolName =>
    let params := assembleToolParams toolName ctx p.tasks t.parameters
    let toolResult := execute_tool_str tools toolName params
    if strStartsWith toolResult "Error" then
      (p.setTask { t with status := "failed" },
       { success := false
         message := "Task failed: " ++ t.description
         error := some toolResult },
       { taskId := t.id, params := params, success := false, result := toolResult })
    else
      (p.setTask { t with status := "completed", result := some (.rstr toolResult) },
       { success := true
         message := "Task completed: " ++ t.description
         data := some (.obj [("task_result", .str toolResult)]) },
       { taskId := t.id, params := params, success := true, result := toolResult })
  | none =>
    let r := reason t ctx
    (p.setTask { t with
        status := if r.success then "completed" else "failed"
        result := r.data.map .rdata },
     r,
     { taskId := t.id, params := [], success := r.success
       result := match r.data with | some j => pyStr j | none => "" })

/-- Plan adaptation (`adapt_plan`): one oracle call plus a re-parse;
`none` models every failure to produce a usable plan (a raising call, an
unparsable response).  It is a parameter of the loop; the analysed claims
exercise the always-failing adaptation `fun _ _ _ => none`. -/
def AdaptFn : Type := Plan → Task → Ctx → Option Plan

/-- The `for task in ready_tasks` body: execute, and on failure try to
adapt (replacing the loop's plan on success).  The by-id task update in
`runTask` coincides with the source's object mutation for unique-id
plans; no analysed claim replaces the plan mid-round. -/
def execReady (tools : ToolMap) (reason : Task → Ctx → AgentResult)
    (adapt : AdaptFn) (ctx : Ctx) :
    List Task → Plan → List AgentResult → List ExecEntry →
    Plan × List AgentResult × List ExecEntry
  | [], p, rs, tr => (p, rs, tr)
  | t :: rest, p, rs, tr =>
    let (p', r, e) := runTask tools reason ctx p t
    let p'' :=
      if r.success then p'
      else match adapt p' t ctx with
           | some np => np
           | none => p'
    execReady tools reason adapt ctx rest p'' (rs ++ [r]) (tr ++ [e])

/-- The `while not plan.is_complete() and not plan.has_failed()` loop of
`execute_plan`, with the deadlock break on an empty ready list.  Fuel
bounds the number of iterations; each analysed run is given ample fuel. -/
def execLoop (tools : ToolMap) (reason : Task → Ctx → AgentResult)
    (adapt : AdaptFn) (ctx : Ctx) :
    ℕ → Plan → List AgentResult → List ExecEntry →
    Plan × List AgentResult × List ExecEntry
  | 0, p, rs, tr => (p, rs, tr)
  | fuel + 1, p, rs, tr =>
    if p.is_complete || p.has_failed then (p, rs, tr)
    else
      let ready := p.get_next_tasks
      if ready.isEmpty then (p, rs, tr)
      else
        let (p', rs', tr') := execReady tools reason adapt ctx ready p rs tr
        execLoop tools reason adapt ctx fuel p' rs' tr'

/-- The most recent non-error, non-empty textual outcome in a trace
segment — the reading of "most recent output of a prior completed task"
against the actual execution order. -/
def mostRecentGoodOutput (tr : List ExecEntry) : Option String :=
  (tr.reverse.find? (fun e =>
    e.success && !(e.result == "") && !(strStartsWith e.result "Error"))).map
    (fun e => e.result)

/-! ### Result synthesis (`AgenticTextExpenseAgent.synthesize_results` in
`src/agents/text_expense.py`) -/

/-- The fixed failure outcome of the `if not successful_results` guard. -/
def allTasksFailedResult : AgentResult :=
  { success := false
    message := "All text processing tasks failed"
    error := some "No successful task results to synthesize" }

/-- `synthesize_results`: the guard is embedded; the branch taken when at
least one task succeeded is the agent-specific extraction/summary logic,
abstracted as the `successCase` parameter (theorems about the guard
quantify over it). -/
def synthesize_results (successCase : List AgentResult → AgentResult)
    (results : List AgentResult) : AgentResult :=
  let successful := results.filter (fun r => r.success)
  if successful.isEmpty then allTasksFailedResult
  else successCase successful

/-! ### Collaborative synthesis (`AgenticAgentManager` in
`src/agents/manager.py`) -/

/-- One entry of the collaboration's `results` list (`{"agent": ...,
"result": ...}`; the timestamp is not consulted anywhere). -/
structure CollabEntry where
  agent : String
  result : AgentResult

/-- `_execute_collaborative_processing`'s accumulation: each *registered*
named agent is executed in declared order and its outcome appended;
unregistered names are skipped.  Each agent's `execute` outcome is
abstracted into `registered` (the shared-context merge only shapes later
agents' inputs, which the abstraction absorbs). -/
def execute_collaborative (registered : String → Option AgentResult)
    (names : List String) : List CollabEntry :=
  names.filterMap (fun n => (registered n).map (fun r => { agent := n, result := r }))

/-- Python `max(l, key=f)`: first element with the maximal key. -/
def pyMaxBy (key : α → ℕ) (x : α) (xs : List α) : α :=
  xs.foldl (fun best y => if key y > key best then y else best) x

/-- The size heuristic `len(str(x["result"].data or ""))`. -/
def serialLen (r : CollabEntry) : ℕ :=
  (pyStrOrEmpty r.result.data).length

def optJ : Option J → J
  | some j => j
  | none => .null

/-- `r["agent"].split()[-2:][0]` — defined under the premise that the name
splits into at least one word (otherwise the source raises `IndexError`,
routed to the fallback branch below). -/
def namePart (name : String) : String :=
  let ws := pyWords name
  (ws.drop (ws.length - 2)).headD ""

/-- `_synthesize_collaborative_results`.  `oracle` is the text returned by
the synthesis oracle call (`GeminiService.call` never raises — transport
failures surface as `Error`-prefixed text).  The only statement in the
`try` block that can raise is the agents-involved list comprehension,
when some successful agent's name has no words; that condition selects
the `except` fallback branch exactly as in the source. -/
def synthesize_collaborative_results (oracle : String)
    (results : List CollabEntry) : AgentResult :=
  let successful := results.filter (fun r => r.result.success)
  match successful with
  | [] =>
    { success := false
      message := "All collaborative agents failed"
      error := some "No successful results from collaboration" }
  | b :: bs =>
    let best := pyMaxBy serialLen b bs
    if (b :: bs).all (fun r => !(pyWords r.agent).isEmpty) then
      { success := true
        message :=
          "🤝 **Multi-Agent Collaboration Complete!**\n\n" ++
          "Agents involved: " ++
            String.intercalate ", " ((b :: bs).map (fun r => namePart r.agent)) ++
          "\nSuccessful agents: " ++ toString (b :: bs).length ++ "/" ++
            toString results.length ++ "\n\n" ++ oracle
        data := some (.obj
          [ ("primary_data", optJ best.result.data)
          , ("collaboration_summary", .obj
              [ ("agents_used", .arr (results.map (fun r => .str r.agent)))
              , ("successful_agents", .num ((b :: bs).length : ℚ))
              , ("total_agents", .num (results.length : ℚ))
              , ("collaboration_advantage", .str oracle) ])
          , ("individual_results", .obj
              ((b :: bs).foldl (fun acc r =>
                match r.result.data with
                | some j => if j.truthy then dictSet acc r.agent j else acc
                | none => acc) [])) ]) }
    else
      { success := true
        message := "Collaboration completed. Best result from " ++ best.agent
        data := best.result.data }

/-! ### Statement helpers (observations about the embedded functions,
not themselves source functions) -/

/-- Field lookup inside an optional JSON payload. -/
def jLookup (o : Option J) (k : String) : Option J :=
  match o with
  | some (.obj fs) => dGet fs k
  | _ => none

/-- Total restatement of the similarity quotient, used to phrase ranking
properties (`simVal` returns `some (simOf a b)` whenever it is defined). -/
def simOf (a b : Finset String) : ℚ :=
  ((a ∩ b).card : ℚ) / ((a ∪ b).card : ℚ)

/-! ### Concrete instances used by witnesses and counterexamples -/

/-- The text-input context of the spec's scenario
(`{"text": "Milk ₹60, Bread ₹40"}` with a `message_date`). -/
def ctxMilk : Ctx :=
  { input_type := "text"
    text := some "Milk ₹60, Bread ₹40"
    message_date := some "2024-01-01" }

/-- A small plan with one completed and one pending task. -/
def planW : Plan :=
  { id := "p"
    goal := "g"
    context := ctxMilk
    tasks :=
      [ { id := "a", type := .extract, description := "d", status := "completed" }
      , { id := "b", type := .save, description := "d", dependencies := ["a"] } ] }

/-- The second task of `planW`, ready once `"a"` completes. -/
def taskWb : Task :=
  { id := "b", type := .save, description := "d", dependencies := ["a"] }

/-- An image-input context and a context of unrecognized input type. -/
def ctxImg : Ctx := { input_type := "image", image_data := some "IMGDATA" }

def ctxAudio : Ctx := { input_type := "audio" }

/-- The scenario plan `[A (no deps), B (deps=[A])]`, both tool-bound. -/
def taskA : Task :=
  { id := "A", type := .extract, description := "extract", tool_name := some "toolA" }

def taskB : Task :=
  { id := "B", type := .save, description := "save"
    tool_name := some "save_to_sheets", dependencies := ["A"] }

def planAB : Plan :=
  { id := "plan_ab", goal := "g", context := ctxMilk, tasks := [taskA, taskB] }

/-- A registry in which task A's tool raises and the persistence tool
works. -/
def toolsFailA : ToolMap := fun name =>
  if name = "toolA" then some (fun _ => .error "boom")
  else if name = "save_to_sheets" then some (fun _ => .ok "saved")
  else none

/-- A reasoning handler that always fails (never invoked on the analysed
runs: every scenario task is tool-bound). -/
def reasonNone : Task → Ctx → AgentResult :=
  fun _ _ => { success := false, message := "no reasoning", error := some "unused" }

/-- The always-failing adaptation (`adapt_plan` returning `None`). -/
def adaptNone : AdaptFn := fun _ _ _ => none

/-- The scenario run for C5: A fails, adaptation fails. -/
def runAB : Plan × List AgentResult × List ExecEntry :=
  execLoop toolsFailA reasonNone adaptNone ctxMilk 4 planAB [] []

/-- Three tasks: two independent extractors followed by a save that
depends on both. -/
def taskX : Task :=
  { id := "t1", type := .extract, description := "x", tool_name := some "toolX" }

def taskY : Task :=
  { id := "t2", type := .extract, description := "y", tool_name := some "toolY" }

def taskZ : Task :=
  { id := "t3", type := .save, description := "z"
    tool_name := some "save_to_sheets", dependencies := ["t1", "t2"] }

def planXYZ : Plan :=
  { id := "pxyz", goal := "g", context := ctxMilk, tasks := [taskX, taskY, taskZ] }

def toolsXYZ : ToolMap := fun n =>
  if n = "toolX" then some (fun _ => .ok "DATA_A")
  else if n = "toolY" then some (fun _ => .ok "DATA_B")
  else if n = "save_to_sheets" then some (fun _ => .ok "saved")
  else none

/-- The run for C6's ordering analysis. -/
def runXYZ : Plan × List AgentResult × List ExecEntry :=
  execLoop toolsXYZ reasonNone adaptNone ctxMilk 5 planXYZ [] []

/-- Collaboration scenario: X fails, Y succeeds. -/
def entryY : CollabEntry :=
  { agent := "Agent Y"
    result := { success := true, message := "y ok", data := some (.obj [("k", .str "v")]) } }

def agentOutcomes : String → Option AgentResult := fun n =>
  if n = "Agent X" then some { success := false, message := "x failed", error := some "err" }
  else if n = "Agent Y" then some entryY.result
  else none

def collabResults : List CollabEntry :=
  execute_collaborative agentOutcomes ["Agent X", "Agent Y"]

/-- An experience whose stored context has no keys. -/
def expEmpty : Experience :=
  { timestamp := "", ctxKeys := ∅, plan_id := "", goal := ""
    tasks_count := 0, success := true, result := none }

/-- An experience sharing the scenario context's key set. -/
def expW : Experience :=
  { timestamp := "t0", ctxKeys := {"text", "input_type"}, plan_id := "p0", goal := "g"
    tasks_count := 2, success := true, result := some "ok" }

def memW : AgentMemory := { experiences := [expW] }

def okResult : AgentResult := { success := true, message := "ok" }

/-- A registry with one well-behaved and one raising tool. -/
def toolsW : ToolMap := fun n =>
  if n = "good" then some (fun _ => .ok "fine")
  else if n = "bad" then some (fun _ => .error "boom")
  else none

/-! ## Claims -/

/-- C1: `Plan.get_next_tasks` returns exactly the tasks whose status is
`"pending"` and whose dependency ids all belong to the ids of
`"completed"` tasks, in the plan's original task order (a sublist of
`tasks`).  The query is a pure function of the plan value, so
determinism, idempotence and absence of mutation hold by construction of
the embedding. -/
theorem readyTasks_spec (p : Plan) :
    (∀ t, t ∈ p.get_next_tasks ↔
      t ∈ p.tasks ∧ t.status = "pending" ∧
        ∀ d ∈ t.dependencies, d ∈ completedIds p.tasks) ∧
    p.get_next_tasks.Sublist p.tasks := by
  refine ⟨fun t => ?_, List.filter_sublist _⟩
  simp [Plan.get_next_tasks, List.mem_filter, List.all_eq_true, List.contains,
    List.elem_iff, and_assoc]

/-- C1 witness: the pending task of a concrete plan whose dependency is
completed is ready, and the ready list is a sublist of the plan. -/
theorem readyTasks_spec_witness :
    taskWb ∈ planW.get_next_tasks ∧ planW.get_next_tasks.Sublist planW.tasks :=
  ⟨((readyTasks_spec planW).1 taskWb).mpr
    ⟨List.mem_cons.mpr (.inr (List.mem_cons.mpr (.inl rfl))), rfl, by decide⟩,
   (readyTasks_spec planW).2⟩

/-- C2: `Plan.is_complete` holds iff every task's status is `"completed"`
or `"skipped"`; `Plan.has_failed` holds iff some task's status is
`"failed"`; and both are pure functions of the list of current task
statuses. -/
theorem isComplete_hasFailed_spec (p : Plan) :
    (p.is_complete = true ↔
      ∀ t ∈ p.tasks, t.status = "completed" ∨ t.status = "skipped") ∧
    (p.has_failed = true ↔ ∃ t ∈ p.tasks, t.status = "failed") ∧
    (∀ q : Plan, p.tasks.map (fun t => t.status) = q.tasks.map (fun t => t.status) →
      p.is_complete = q.is_complete ∧ p.has_failed = q.has_failed) := by
  refine ⟨?_, ?_, ?_⟩
  · simp [Plan.is_complete, List.all_eq_true, List.contains, List.elem_iff]
  · simp [Plan.has_failed, List.any_eq_true]
  · intro q h
    constructor
    · show p.tasks.all _ = q.tasks.all _
      have hp : ∀ (ts : List Task), ts.all (fun t => ["completed", "skipped"].contains t.status)
          = (ts.map (fun t => t.status)).all (fun s => ["completed", "skipped"].contains s) := by
        intro ts
        induction ts with
        | nil => rfl
        | cons a l ih => simp only [List.all_cons, List.map_cons, ih]
      rw [hp p.tasks, hp q.tasks, h]
    · show p.tasks.any _ = q.tasks.any _
      have hp : ∀ (ts : List Task), ts.any (fun t => t.status == "failed")
          = (ts.map (fun t => t.status)).any (fun s => s == "failed") := by
        intro ts
        induction ts with
        | nil => rfl
        | cons a l ih => simp only [List.any_cons, List.map_cons, ih]
      rw [hp p.tasks, hp q.tasks, h]

/-- C2 witness: evaluation at a concrete two-task plan. -/
theorem isComplete_hasFailed_spec_witness :
    (planW.is_complete = true ↔
      ∀ t ∈ planW.tasks, t.status = "completed" ∨ t.status = "skipped") ∧
    (planW.has_failed = true ↔ ∃ t ∈ planW.tasks, t.status = "failed") ∧
    (planW.is_complete = planW.is_complete ∧ planW.has_failed = planW.has_failed) :=
  ⟨(isComplete_hasFailed_spec planW).1, (isComplete_hasFailed_spec planW).2.1,
    (isComplete_hasFailed_spec planW).2.2 planW rfl⟩

/-- C3: the fallback plan is deterministic and has the claimed shape: for
text input exactly two tasks — an EXTRACT task bound to
`extract_text_expense` and a SAVE task bound to `save_to_sheets` whose
dependency list is exactly the extract task's id — for image input the
same shape with `process_receipt`, and for any other input type a single
generic PROCESS task with confidence 0.5. -/
theorem fallback_plan_spec (now : String) (ctx : Ctx) :
    (ctx.input_type = "text" →
      (create_fallback_plan now ctx).tasks.map
          (fun t => (t.id, t.type, t.tool_name, t.dependencies, t.confidence)) =
        [ ("task_1", TaskType.extract, some "extract_text_expense", [], 8/10)
        , ("task_2", TaskType.save, some "save_to_sheets", ["task_1"], 9/10) ]) ∧
    (ctx.input_type = "image" →
      (create_fallback_plan now ctx).tasks.map
          (fun t => (t.id, t.type, t.tool_name, t.dependencies, t.confidence)) =
        [ ("task_1", TaskType.extract, some "process_receipt", [], 8/10)
        , ("task_2", TaskType.save, some "save_to_sheets", ["task_1"], 9/10) ]) ∧
    (ctx.input_type ≠ "text" → ctx.input_type ≠ "image" →
      (create_fallback_plan now ctx).tasks.map
          (fun t => (t.id, t.type, t.tool_name, t.dependencies, t.confidence)) =
        [ ("task_1", TaskType.process, none, [], 5/10) ]) := by
  refine ⟨fun h => ?_, fun h => ?_, fun h h' => ?_⟩
  · simp [create_fallback_plan, h]
  · simp [create_fallback_plan, h]
  · simp only [create_fallback_plan]
    rw [if_neg (by simpa using h'), if_neg (by simpa using h)]
    rfl

/-- C3 witness: the three branches at concrete contexts. -/
theorem fallback_plan_spec_witness :
    ((create_fallback_plan "T" ctxMilk).tasks.map
        (fun t => (t.id, t.type, t.tool_name, t.dependencies, t.confidence)) =
      [ ("task_1", TaskType.extract, some "extract_text_expense", [], 8/10)
      , ("task_2", TaskType.save, some "save_to_sheets", ["task_1"], 9/10) ]) ∧
    ((create_fallback_plan "T" ctxImg).tasks.map
        (fun t => (t.id, t.type, t.tool_name, t.dependencies, t.confidence)) =
      [ ("task_1", TaskType.extract, some "process_receipt", [], 8/10)
      , ("task_2", TaskType.save, some "save_to_sheets", ["task_1"], 9/10) ]) ∧
    ((create_fallback_plan "T" ctxAudio).tasks.map
        (fun t => (t.id, t.type, t.tool_name, t.dependencies, t.confidence)) =
      [ ("task_1", TaskType.process, none, [], 5/10) ]) :=
  ⟨(fallback_plan_spec "T" ctxMilk).1 rfl,
   (fallback_plan_spec "T" ctxImg).2.1 rfl,
   (fallback_plan_spec "T" ctxAudio).2.2 (by decide) (by decide)⟩

set_option maxRecDepth 8192 in
/-- The static fallback JSON decodes to a single-task plan (independent of
timestamp and context apart from the fields that carry them). -/
theorem parse_fallbackPlanJson (now : String) (ctx : Ctx) :
    (parse_plan_response now fallbackPlanJson ctx).id = "plan_" ++ now ∧
    (parse_plan_response now fallbackPlanJson ctx).goal =
      "Process input using fallback strategy" ∧
    (parse_plan_response now fallbackPlanJson ctx).context = ctx ∧
    (parse_plan_response now fallbackPlanJson ctx).tasks.map
        (fun t => (t.id, t.type, t.description, t.tool_name, t.parameters,
                   t.dependencies, t.status, t.result.isSome)) =
      [("task_1", .extract, "Extract data from input", none, [], [], "pending", false)] ∧
    (parse_plan_response now fallbackPlanJson ctx).tasks.map (fun t => t.confidence) =
      [7/10] := by
  refine ⟨rfl, rfl, rfl, rfl, ?_⟩
  have h : (parse_plan_response now fallbackPlanJson ctx).tasks.map (fun t => t.confidence)
      = [(digitsToNat ['0'] : ℚ) + (digitsToNat ['7'] : ℚ) /
           ((10 : ℚ) ^ (['7'] : List Char).length)] := rfl
  have h0 : digitsToNat ['0'] = 0 := rfl
  have h7 : digitsToNat ['7'] = 7 := rfl
  have hl : (['7'] : List Char).length = 1 := rfl
  rw [h, h0, h7, hl]
  norm_num

set_option maxRecDepth 8192 in
/-- C4 counterexample: with the scenario context and an unreachable
planning oracle, `create_plan` returns a plan with one task, not the
two-task text fallback the claim describes. -/
theorem createPlan_oracle_down_cex :
    (create_plan "T" {"text"} {} ctxMilk (.error "oracle unreachable")).map
        (fun p => p.tasks.length) = .ok 1 ∧
    ¬ ((create_plan "T" {"text"} {} ctxMilk (.error "oracle unreachable")).map
        (fun p => p.tasks.length) = .ok 2) := by
  constructor
  · rfl
  · intro h
    have h1 : (Except.ok 1 : Except Unit ℕ) = .ok 2 := by
      rw [← h]; rfl
    have : (1 : ℕ) = 2 := Except.ok.inj h1
    omega

/-- The memory query never raises when the query context has a key. -/
theorem get_similar_ok_of_nonempty (ctxKeys : Finset String) (m : AgentMemory)
    (h : ctxKeys.Nonempty) :
    ∃ l, get_similar_experiences ctxKeys m = .ok l := by
  unfold get_similar_experiences
  rw [if_neg]
  · exact ⟨_, rfl⟩
  · simp only [List.any_eq_true, decide_eq_true_eq, not_exists, not_and]
    intro e _
    have : 0 < (ctxKeys ∪ e.ctxKeys).card :=
      Finset.card_pos.mpr (h.mono Finset.subset_union_left)
    omega

/-- C4 (amended): when the planning oracle call raises, or returns an
empty/whitespace or `Error`-prefixed response, `create_plan` raises no
exception (given the query context has at least one key, as in the
scenario) and returns the deterministic single-task plan decoded from
the static fallback JSON — goal `"Process input using fallback
strategy"`, one pending EXTRACT task `task_1` with no tool, no
dependencies and confidence 0.7. -/
theorem createPlan_oracle_down (now : String) (ctxKeys : Finset String)
    (m : AgentMemory) (ctx : Ctx) (resp : Except String String)
    (hk : ctxKeys.Nonempty)
    (hfail : (∃ e, resp = .error e) ∨
      (∃ s, resp = .ok s ∧ (pyStrip s = "" ∨ strStartsWith s "Error" = true))) :
    ∃ p, create_plan now ctxKeys m ctx resp = .ok p ∧
      p.goal = "Process input using fallback strategy" ∧
      p.tasks.map (fun t => (t.id, t.type, t.description, t.tool_name, t.parameters,
                             t.dependencies, t.status, t.result.isSome)) =
        [("task_1", .extract, "Extract data from input", none, [], [], "pending", false)] ∧
      p.tasks.map (fun t => t.confidence) = [7/10] := by
  obtain ⟨l, hl⟩ := get_similar_ok_of_nonempty ctxKeys m hk
  have hcall : call_planning_ai resp = fallbackPlanJson := by
    rcases hfail with ⟨e, rfl⟩ | ⟨s, rfl, hs | hs⟩
    · rfl
    · simp [call_planning_ai, hs]
    · simp [call_planning_ai, hs]
  refine ⟨parse_plan_response now fallbackPlanJson ctx, ?_, ?_, ?_, ?_⟩
  · unfold create_plan
    rw [hl]
    show Except.ok (parse_plan_response now (call_planning_ai resp) ctx) = _
    rw [hcall]
  · exact (parse_fallbackPlanJson now ctx).2.1
  · exact (parse_fallbackPlanJson now ctx).2.2.2.1
  · exact (parse_fallbackPlanJson now ctx).2.2.2.2

/-- Executing one task never changes the plan's id. -/
theorem runTask_id (tools : ToolMap) (reason : Task → Ctx → AgentResult)
    (ctx : Ctx) (p : Plan) (t : Task) :
    (runTask tools reason ctx p t).1.id = p.id := by
  unfold runTask
  cases ht : t.tool_name with
  | none => rfl
  | some tn =>
    simp only [ht]
    split <;> rfl

/-- With the always-failing adaptation, a round of ready-task execution
keeps the same plan object (its id in particular). -/
theorem execReady_id (tools : ToolMap) (reason : Task → Ctx → AgentResult)
    (ctx : Ctx) :
    ∀ (ready : List Task) (p : Plan) (rs : List AgentResult) (tr : List ExecEntry),
      (execReady tools reason adaptNone ctx ready p rs tr).1.id = p.id := by
  intro ready
  induction ready with
  | nil => intro p rs tr; rfl
  | cons t rest ih =>
    intro p rs tr
    rcases hrt : runTask tools reason ctx p t with ⟨p', r, e⟩
    have hid : p'.id = p.id := by
      have h := runTask_id tools reason ctx p t
      rw [hrt] at h
      exact h
    show (execReady tools reason adaptNone ctx (t :: rest) p rs tr).1.id = p.id
    unfold execReady
    rw [hrt]
    have hadapt : (if r.success then p'
        else match adaptNone p' t ctx with
             | some np => np
             | none => p') = p' := by
      cases r.success <;> rfl
    dsimp only
    rw [hadapt, ih p' (rs ++ [r]) (tr ++ [e]), hid]

/-- C4 witness: the amended theorem at the concrete scenario input. -/
theorem createPlan_oracle_down_witness :
    ∃ p, create_plan "T" {"text"} {} ctxMilk (.ok "") = .ok p ∧
      p.goal = "Process input using fallback strategy" ∧
      p.tasks.map (fun t => (t.id, t.type, t.description, t.tool_name, t.parameters,
                             t.dependencies, t.status, t.result.isSome)) =
        [("task_1", .extract, "Extract data from input", none, [], [], "pending", false)] ∧
      p.tasks.map (fun t => t.confidence) = [7/10] :=
  createPlan_oracle_down "T" {"text"} {} ctxMilk (.ok "")
    ⟨"text", by decide⟩ (.inr ⟨"", rfl, .inl rfl⟩)

/-- C5: a plan whose task has failed is a fixpoint of the execution loop
(the loop ends immediately); with the always-failing adaptation the
original plan is kept throughout (same plan id); and on the concrete
scenario `[A (no deps), B (deps=[A])]` with A's tool failing and
adaptation failing, the run ends with `has_failed`, zero completed
tasks, the single failed task result, and `synthesize_results` returns
the fixed all-tasks-failed outcome whatever the success branch would
have done. -/
theorem failedPlan_ends_loop_spec :
    (∀ (fuel : ℕ) (tools : ToolMap) (reason : Task → Ctx → AgentResult)
       (adapt : AdaptFn) (ctx : Ctx) (p : Plan) (rs : List AgentResult)
       (tr : List ExecEntry),
       p.has_failed = true →
       execLoop tools reason adapt ctx fuel p rs tr = (p, rs, tr)) ∧
    (∀ (fuel : ℕ) (tools : ToolMap) (reason : Task → Ctx → AgentResult)
       (ctx : Ctx) (p : Plan) (rs : List AgentResult) (tr : List ExecEntry),
       (execLoop tools reason adaptNone ctx fuel p rs tr).1.id = p.id) ∧
    (runAB.1.has_failed = true ∧
     (runAB.1.tasks.filter (fun t => t.status == "completed")).length = 0 ∧
     runAB.2.1.map (fun r => r.success) = [false] ∧
     runAB.1.id = planAB.id ∧
     ∀ successCase, synthesize_results successCase runAB.2.1 = allTasksFailedResult) := by
  refine ⟨?_, ?_, rfl, rfl, rfl, rfl, fun successCase => rfl⟩
  · intro fuel tools reason adapt ctx p rs tr h
    cases fuel with
    | zero => rfl
    | succ n => simp [execLoop, h]
  · intro fuel tools reason ctx
    induction fuel with
    | zero => intro p rs tr; rfl
    | succ n ih =>
      intro p rs tr
      unfold execLoop
      split
      · rfl
      · dsimp only
        split
        · rfl
        · rcases hex : execReady tools reason adaptNone ctx p.get_next_tasks p rs tr
            with ⟨p', rs', tr'⟩
          have hid : p'.id = p.id := by
            have h := execReady_id tools reason ctx p.get_next_tasks p rs tr
            rw [hex] at h
            exact h
          exact (ih p' rs' tr').trans hid

/-- C5 witness: the loop-fixpoint part applied to the concrete failed
plan produced by the scenario run. -/
theorem failedPlan_ends_loop_spec_witness :
    execLoop toolsFailA reasonNone adaptNone ctxMilk 3 runAB.1 [] [] = (runAB.1, [], []) :=
  failedPlan_ends_loop_spec.1 3 toolsFailA reasonNone adaptNone ctxMilk runAB.1 [] [] rfl

/-- `find?` specialised to key lookup, cons cases. -/
theorem findKey_cons_pos (k : String) (a : String × J) (l : List (String × J))
    (h : (a.1 == k) = true) :
    List.find? (fun q => q.1 == k) (a :: l) = some a :=
  List.find?_cons_of_pos l h

theorem findKey_cons_neg (k : String) (a : String × J) (l : List (String × J))
    (h : ¬ (a.1 == k) = true) :
    List.find? (fun q => q.1 == k) (a :: l) = List.find? (fun q => q.1 == k) l :=
  List.find?_cons_of_neg l h

/-- The replacement `map` of `dictSet` keeps the lookup of the assigned
key pointing at the new value whenever the key occurs. -/
theorem dGet_setMap_self (d : List (String × J)) (k : String) (v : J)
    (hany : d.any (fun p => p.1 == k) = true) :
    dGet (d.map (fun p => if p.1 == k then (k, v) else p)) k = some v := by
  induction d with
  | nil => simp at hany
  | cons p rest ih =>
    rw [List.map_cons]
    by_cases hp : (p.1 == k) = true
    · rw [if_pos hp]
      unfold dGet
      rw [findKey_cons_pos k (k, v) _ (by simp)]
      rfl
    · rw [if_neg hp]
      have hrest : rest.any (fun q => q.1 == k) = true := by
        rcases List.any_eq_true.mp hany with ⟨q, hq, hqk⟩
        rcases List.mem_cons.mp hq with rfl | hq'
        · exact absurd hqk hp
        · exact List.any_eq_true.mpr ⟨q, hq', hqk⟩
      unfold dGet at ih ⊢
      rw [findKey_cons_neg k p _ hp]
      exact ih hrest

/-- The replacement `map` of `dictSet` does not disturb other keys. -/
theorem dGet_setMap_other (d : List (String × J)) (k' : String) (v : J)
    (k : String) (hk : k ≠ k') :
    dGet (d.map (fun p => if p.1 == k' then (k', v) else p)) k = dGet d k := by
  induction d with
  | nil => rfl
  | cons p rest ih =>
    rw [List.map_cons]
    by_cases hp : (p.1 == k') = true
    · rw [if_pos hp]
      have hp' : p.1 = k' := by simpa using hp
      have h1 : ¬ (((k', v) : String × J).1 == k) = true := by
        simpa using fun h => hk h.symm
      have h2 : ¬ (p.1 == k) = true := by
        rw [hp']
        simpa using fun h => hk h.symm
      unfold dGet at ih ⊢
      rw [findKey_cons_neg k (k', v) _ h1, findKey_cons_neg k p _ h2]
      exact ih
    · rw [if_neg hp]
      by_cases hq : (p.1 == k) = true
      · unfold dGet
        rw [findKey_cons_pos k p _ hq, findKey_cons_pos k p _ hq]
      · unfold dGet at ih ⊢
        rw [findKey_cons_neg k p _ hq, findKey_cons_neg k p _ hq]
        exact ih

/-- Assigning a key into a dict: the new binding is read back, other keys
are untouched. -/
theorem dGet_dictSet (d : List (String × J)) (k' : String) (v : J) (k : String) :
    dGet (dictSet d k' v) k = if k = k' then some v else dGet d k := by
  by_cases hk : k = k'
  · subst hk
    rw [if_pos rfl]
    unfold dictSet
    split
    next hany => exact dGet_setMap_self d k v hany
    next hany =>
      unfold dGet
      rw [List.find?_append]
      have hnone : d.find? (fun q => q.1 == k) = none := by
        rw [List.find?_eq_none]
        intro q hq
        simp only [List.any_eq_true, not_exists, not_and] at hany
        exact hany q hq
      rw [hnone, findKey_cons_pos k (k, v) [] (by simp)]
      rfl
  · rw [if_neg hk]
    unfold dictSet
    split
    next hany => exact dGet_setMap_other d k' v k hk
    next hany =>
      unfold dGet
      rw [List.find?_append]
      have h1 : List.find? (fun q => q.1 == k) [(k', v)] = none := by
        rw [List.find?_eq_none]
        intro q hq
        rcases List.mem_singleton.mp hq with rfl
        simpa using fun h => hk h.symm
      rw [h1]
      cases List.find? (fun q => q.1 == k) d <;> rfl

/-- Reading the last binding of a cons cell. -/
theorem dGetLast_cons (p : String × J) (d : List (String × J)) (k : String) :
    dGetLast (p :: d) k =
      (dGetLast d k).or (if p.1 == k then some p.2 else none) := by
  unfold dGetLast
  rw [List.reverse_cons, List.find?_append]
  by_cases hp : (p.1 == k) = true
  · rw [findKey_cons_pos k p _ hp, if_pos hp]
    cases List.find? (fun q => q.1 == k) d.reverse <;> rfl
  · rw [findKey_cons_neg k p _ hp, if_neg hp]
    cases List.find? (fun q => q.1 == k) d.reverse <;> rfl

/-- `base.update(declared)` read through `get`: the last declared binding
wins, otherwise the base binding. -/
theorem dGet_dictUpdate (b d : List (String × J)) (k : String) :
    dGet (dictUpdate b d) k = (dGetLast d k).or (dGet b k) := by
  induction d generalizing b with
  | nil =>
    show dGet b k = (dGetLast [] k).or (dGet b k)
    rfl
  | cons p rest ih =>
    show dGet (dictUpdate (dictSet b p.1 p.2) rest) k = _
    rw [ih, dGet_dictSet, dGetLast_cons, Option.or_assoc]
    congr 1
    by_cases hk : k = p.1
    · subst hk
      simp
    · have hp : (p.1 == k) = false := by simpa using fun h => hk h.symm
      simp [hp, hk]

/-- Lookup across an append. -/
theorem dGet_append (l₁ l₂ : List (String × J)) (k : String) :
    dGet (l₁ ++ l₂) k = (dGet l₁ k).or (dGet l₂ k) := by
  unfold dGet
  rw [List.find?_append]
  cases List.find? (fun q => q.1 == k) l₁ <;> rfl

/-- C6 (amended): for the persistence tool, parameter assembly fills
`message_date` from the context's (non-empty) `message_date`, fills
`expense_data` from the *first* — in plan-insertion order — completed
task whose result is a non-empty string not starting with `"Error"`
(`firstGoodResult`), and on key conflicts the task's declared parameters
win over both convention-filled values. -/
theorem saveParams_spec (ctx : Ctx) (tasks : List Task)
    (declared : List (String × J)) :
    (dGet (assembleToolParams "save_to_sheets" ctx tasks declared) "message_date" =
      (dGetLast declared "message_date").or
        (match ctx.message_date with
         | some s => if s == "" then none else some (.str s)
         | none => none)) ∧
    (dGet (assembleToolParams "save_to_sheets" ctx tasks declared) "expense_data" =
      (dGetLast declared "expense_data").or
        ((firstGoodResult tasks).map (fun s => .str s))) ∧
    (∀ k v, dGetLast declared k = some v →
      dGet (assembleToolParams "save_to_sheets" ctx tasks declared) k = some v) := by
  have hform : assembleToolParams "save_to_sheets" ctx tasks declared =
      dictUpdate
        ((match ctx.message_date with
          | some s => if s == "" then [] else [("message_date", J.str s)]
          | none => []) ++
         (match firstGoodResult tasks with
          | some r => [("expense_data", J.str r)]
          | none => [])) declared := rfl
  refine ⟨?_, ?_, ?_⟩
  · rw [hform, dGet_dictUpdate]
    congr 1
    rw [dGet_append]
    rcases ctx.message_date with _ | s
    · dsimp only
      cases firstGoodResult tasks <;> rfl
    · dsimp only
      by_cases hs : (s == "") = true
      · rw [if_pos hs, if_pos hs]
        cases firstGoodResult tasks <;> rfl
      · rw [if_neg hs, if_neg hs]
        cases firstGoodResult tasks <;> rfl
  · rw [hform, dGet_dictUpdate]
    congr 1
    rw [dGet_append]
    rcases ctx.message_date with _ | s
    · dsimp only
      cases firstGoodResult tasks <;> rfl
    · dsimp only
      by_cases hs : (s == "") = true
      · rw [if_pos hs]
        cases firstGoodResult tasks <;> rfl
      · rw [if_neg hs]
        cases firstGoodResult tasks <;> rfl
  · intro k v hv
    rw [hform, dGet_dictUpdate, hv]
    rfl

/-- C6 counterexample: in the run of plan `[t1, t2, t3(save, deps both)]`,
t1 and t2 complete in that order with outputs `DATA_A` and `DATA_B`, so
at t3's execution the most recent non-error textual output of a prior
completed task is `DATA_B` — yet the assembled `expense_data` is
`DATA_A`, the first such output in plan order. -/
theorem saveParams_most_recent_cex :
    (runXYZ.2.2.map (fun e => (e.taskId, e.success, e.result)) =
      [("t1", true, "DATA_A"), ("t2", true, "DATA_B"), ("t3", true, "saved")]) ∧
    (runXYZ.2.2.map (fun e => dGet e.params "expense_data") =
      [none, none, some (.str "DATA_A")]) ∧
    mostRecentGoodOutput (runXYZ.2.2.take 2) = some "DATA_B" ∧
    ¬ ((some (J.str "DATA_A") : Option J) =
        (mostRecentGoodOutput (runXYZ.2.2.take 2)).map J.str) := by
  refine ⟨rfl, rfl, rfl, ?_⟩
  intro h
  have h2 : "DATA_A" = "DATA_B" := J.str.inj (Option.some.inj h)
  exact absurd h2 (by decide)

/-- C6 witness: a declared `message_date` overrides the convention-filled
one. -/
theorem saveParams_spec_witness :
    dGet (assembleToolParams "save_to_sheets" ctxMilk runXYZ.1.tasks
      [("message_date", J.str "OVR")]) "message_date" = some (.str "OVR") :=
  (saveParams_spec ctxMilk runXYZ.1.tasks [("message_date", J.str "OVR")]).2.2
    "message_date" (J.str "OVR") rfl

/-- Python `max(l, key=f)` picks a member whose key is maximal. -/
theorem pyMaxBy_spec (key : α → ℕ) :
    ∀ (xs : List α) (x : α),
      pyMaxBy key x xs ∈ x :: xs ∧
      ∀ y ∈ x :: xs, key y ≤ key (pyMaxBy key x xs) := by
  intro xs
  induction xs with
  | nil =>
    intro x
    refine ⟨List.mem_cons_self x [], ?_⟩
    intro y hy
    rcases List.mem_cons.mp hy with rfl | hy'
    · exact le_refl _
    · exact absurd hy' (List.not_mem_nil y)
  | cons z zs ih =>
    intro x
    have hfold : pyMaxBy key x (z :: zs) =
        pyMaxBy key (if key z > key x then z else x) zs := by
      unfold pyMaxBy
      rw [List.foldl_cons]
    obtain ⟨hmem, hmax⟩ := ih (if key z > key x then z else x)
    have hiteLe : ∀ w, key w ≤ key (if key z > key x then z else x) →
        key w ≤ key (pyMaxBy key (if key z > key x then z else x) zs) :=
      fun w hw => le_trans hw (hmax _ (List.mem_cons_self _ zs))
    constructor
    · rw [hfold]
      by_cases hc : key z > key x
      · rw [if_pos hc] at hmem
        rcases List.mem_cons.mp hmem with h1 | h1
        · rw [if_pos hc, h1]
          exact List.mem_cons.mpr (.inr (List.mem_cons_self z zs))
        · rw [if_pos hc]
          exact List.mem_cons.mpr (.inr (List.mem_cons.mpr (.inr h1)))
      · rw [if_neg hc] at hmem
        rcases List.mem_cons.mp hmem with h1 | h1
        · rw [if_neg hc, h1]
          exact List.mem_cons_self x (z :: zs)
        · rw [if_neg hc]
          exact List.mem_cons.mpr (.inr (List.mem_cons.mpr (.inr h1)))
    · intro y hy
      rw [hfold]
      rcases List.mem_cons.mp hy with h1 | hy'
      · refine hiteLe y ?_
        by_cases hc : key z > key x
        · rw [if_pos hc, h1]
          exact le_of_lt hc
        · rw [if_neg hc, h1]
      · rcases List.mem_cons.mp hy' with h2 | hy''
        · refine hiteLe y ?_
          by_cases hc : key z > key x
          · rw [if_pos hc, h2]
          · rw [if_neg hc, h2]
            exact le_of_not_lt hc
        · exact hmax y (List.mem_cons.mpr (.inr hy''))

/-- C7: with zero successful collaborators the outcome is the fixed
failure; with at least one, the outcome is a success whose primary
payload is the successful result of largest serialized size
(`pyMaxBy serialLen`, Python's `max(..., key=len(str(data or "")))`),
and — when every successful agent's name splits into at least one word,
so the source's message building does not raise — the collaboration
summary carries `successful_agents` and `total_agents` counts; when the
message building raises, the fallback success carries the largest
payload directly. -/
theorem synthCollab_spec (oracle : String) (results : List CollabEntry) :
    (results.filter (fun r => r.result.success) = [] →
      synthesize_collaborative_results oracle results =
        { success := false
          message := "All collaborative agents failed"
          data := none
          error := some "No successful results from collaboration" }) ∧
    (∀ b bs, results.filter (fun r => r.result.success) = b :: bs →
      (synthesize_collaborative_results oracle results).success = true ∧
      pyMaxBy serialLen b bs ∈ b :: bs ∧
      (∀ r ∈ b :: bs, serialLen r ≤ serialLen (pyMaxBy serialLen b bs)) ∧
      ((b :: bs).all (fun r => !(pyWords r.agent).isEmpty) = true →
        jLookup (synthesize_collaborative_results oracle results).data "primary_data" =
          some (optJ (pyMaxBy serialLen b bs).result.data) ∧
        jLookup (jLookup (synthesize_collaborative_results oracle results).data
            "collaboration_summary") "successful_agents" =
          some (.num ((b :: bs).length : ℚ)) ∧
        jLookup (jLookup (synthesize_collaborative_results oracle results).data
            "collaboration_summary") "total_agents" =
          some (.num (results.length : ℚ))) ∧
      ((b :: bs).all (fun r => !(pyWords r.agent).isEmpty) = false →
        (synthesize_collaborative_results oracle results).data =
          (pyMaxBy serialLen b bs).result.data)) := by
  constructor
  · intro h
    simp only [synthesize_collaborative_results, h]
  · intro b bs hf
    have hred : synthesize_collaborative_results oracle results =
        (if (b :: bs).all (fun r => !(pyWords r.agent).isEmpty) then
          { success := true
            message :=
              "🤝 **Multi-Agent Collaboration Complete!**\n\n" ++
              "Agents involved: " ++
                String.intercalate ", " ((b :: bs).map (fun r => namePart r.agent)) ++
              "\nSuccessful agents: " ++ toString (b :: bs).length ++ "/" ++
                toString results.length ++ "\n\n" ++ oracle
            data := some (.obj
              [ ("primary_data", optJ (pyMaxBy serialLen b bs).result.data)
              , ("collaboration_summary", .obj
                  [ ("agents_used", .arr (results.map (fun r => .str r.agent)))
                  , ("successful_agents", .num ((b :: bs).length : ℚ))
                  , ("total_agents", .num (results.length : ℚ))
                  , ("collaboration_advantage", .str oracle) ])
              , ("individual_results", .obj
                  ((b :: bs).foldl (fun acc r =>
                    match r.result.data with
                    | some j => if j.truthy then dictSet acc r.agent j else acc
                    | none => acc) [])) ])
            error := none }
        else
          { success := true
            message := "Collaboration completed. Best result from "
              ++ (pyMaxBy serialLen b bs).agent
            data := (pyMaxBy serialLen b bs).result.data
            error := none } : AgentResult) := by
      simp only [synthesize_collaborative_results, hf]
    obtain ⟨hmem, hmax⟩ := pyMaxBy_spec serialLen bs b
    refine ⟨?_, hmem, hmax, ?_, ?_⟩
    · rw [hred]
      split <;> rfl
    · intro hok
      rw [hred, if_pos hok]
      exact ⟨rfl, rfl, rfl⟩
    · intro hbad
      rw [hred, if_neg (by rw [hbad]; exact Bool.false_ne_true)]

/-- C7 witness: collaborators `[Agent X (fails), Agent Y (succeeds)]`
yield overall success with counts 1 of 2. -/
theorem synthCollab_spec_witness :
    (synthesize_collaborative_results "S" collabResults).success = true ∧
    jLookup (jLookup (synthesize_collaborative_results "S" collabResults).data
        "collaboration_summary") "successful_agents" = some (.num ((1 : ℕ) : ℚ)) ∧
    jLookup (jLookup (synthesize_collaborative_results "S" collabResults).data
        "collaboration_summary") "total_agents" = some (.num ((2 : ℕ) : ℚ)) := by
  obtain ⟨hsucc, _, _, hok, _⟩ := (synthCollab_spec "S" collabResults).2 entryY [] rfl
  obtain ⟨_, hsa, hta⟩ := hok rfl
  exact ⟨hsucc, hsa, hta⟩

/-- Every scored pair produced inside `get_similar_experiences` carries
the similarity of its experience, above the threshold. -/
theorem scored_mem_spec (ctxKeys : Finset String) (m : AgentMemory)
    (p : ℚ × Experience)
    (hp : p ∈ m.experiences.filterMap (fun e =>
      match simVal ctxKeys e.ctxKeys with
      | some s => if s > 3/10 then some (s, e) else none
      | none => none)) :
    simVal ctxKeys p.2.ctxKeys = some p.1 ∧ 3/10 < p.1 := by
  obtain ⟨e, _, hfe⟩ := List.mem_filterMap.mp hp
  cases hsv : simVal ctxKeys e.ctxKeys with
  | none => rw [hsv] at hfe; exact absurd hfe (by simp)
  | some s =>
    rw [hsv] at hfe
    dsimp only at hfe
    by_cases hgt : s > 3/10
    · rw [if_pos hgt] at hfe
      obtain rfl := Option.some.inj hfe
      exact ⟨hsv, hgt⟩
    · rw [if_neg hgt] at hfe
      exact absurd hfe (by simp)

/-- C8 (amended): whenever the two key sets are not both empty, the
similarity of `get_similar_experiences` is the Jaccard index — `1` on
equal key sets, `0` on disjoint ones, always within `[0, 1]` — and a
successful query returns at most 5 experiences, each with similarity
strictly above `0.3`, ranked by descending similarity.  When both key
sets are empty the source raises `ZeroDivisionError` instead
(`simVal = none`, see the counterexample). -/
theorem similarity_spec (ctxKeys : Finset String) (m : AgentMemory) :
    (∀ a b : Finset String, (a ∪ b).Nonempty →
      (a = b → simVal a b = some 1) ∧
      (Disjoint a b → simVal a b = some 0) ∧
      (∀ q, simVal a b = some q → 0 ≤ q ∧ q ≤ 1)) ∧
    (∀ l, get_similar_experiences ctxKeys m = .ok l →
      l.length ≤ 5 ∧
      (∀ e ∈ l, ∃ q, simVal ctxKeys e.ctxKeys = some q ∧ 3/10 < q) ∧
      l.Pairwise (fun e₁ e₂ => ∀ q₁ q₂, simVal ctxKeys e₁.ctxKeys = some q₁ →
        simVal ctxKeys e₂.ctxKeys = some q₂ → q₂ ≤ q₁)) := by
  constructor
  · intro a b hne
    have hcard : ¬ (a ∪ b).card = 0 := by
      have := Finset.card_pos.mpr hne
      omega
    refine ⟨?_, ?_, ?_⟩
    · intro hab
      subst hab
      unfold simVal
      rw [if_neg hcard]
      rw [Finset.inter_self, Finset.union_self]
      congr 1
      rw [Finset.union_self] at hcard
      exact div_self (by exact_mod_cast hcard)
    · intro hd
      unfold simVal
      rw [if_neg hcard]
      have hz : (a ∩ b).card = 0 := by
        rw [Finset.card_eq_zero]
        exact Finset.disjoint_iff_inter_eq_empty.mp hd
      rw [hz, Nat.cast_zero, zero_div]
    · intro q hq
      unfold simVal at hq
      rw [if_neg hcard] at hq
      obtain rfl := (Option.some.inj hq).symm
      constructor
      · exact div_nonneg (Nat.cast_nonneg _) (Nat.cast_nonneg _)
      · rw [div_le_one (by exact_mod_cast Nat.pos_of_ne_zero hcard)]
        exact_mod_cast Finset.card_le_card
          (le_trans Finset.inter_subset_left Finset.subset_union_left)
  · intro l hl
    unfold get_similar_experiences at hl
    by_cases hany : (m.experiences.any
        (fun e => (ctxKeys ∪ e.ctxKeys).card = 0)) = true
    · rw [if_pos hany] at hl
      exact Except.noConfusion hl
    · rw [if_neg hany] at hl
      obtain rfl := (Except.ok.inj hl).symm
      set scored := m.experiences.filterMap (fun e =>
        match simVal ctxKeys e.ctxKeys with
        | some s => if s > 3/10 then some (s, e) else none
        | none => none) with hscored
      have hsorted_pw : (scored.mergeSort (fun x y => decide (y.1 ≤ x.1))).Pairwise
          (fun x y => (decide (y.1 ≤ x.1)) = true) :=
        List.sorted_mergeSort
          (fun x y z hxy hyz => by
            simp only [decide_eq_true_eq] at hxy hyz ⊢
            exact le_trans hyz hxy)
          (fun x y => by
            simp only [Bool.or_eq_true, decide_eq_true_eq]
            exact le_total y.1 x.1)
          scored
      have hmem_scored : ∀ p ∈ (scored.mergeSort (fun x y => decide (y.1 ≤ x.1))).take 5,
          simVal ctxKeys p.2.ctxKeys = some p.1 ∧ 3/10 < p.1 := by
        intro p hp
        have hp1 : p ∈ scored.mergeSort (fun x y => decide (y.1 ≤ x.1)) :=
          List.mem_of_mem_take hp
        have hp2 : p ∈ scored := (List.mergeSort_perm scored _).mem_iff.mp hp1
        exact scored_mem_spec ctxKeys m p hp2
      refine ⟨?_, ?_, ?_⟩
      · rw [List.length_map, List.length_take]
        exact le_trans (min_le_left _ _) (le_refl 5)
      · intro e he
        obtain ⟨p, hp, rfl⟩ := List.mem_map.mp he
        obtain ⟨h1, h2⟩ := hmem_scored p hp
        exact ⟨p.1, h1, h2⟩
      · rw [List.pairwise_map]
        have hpw : ((scored.mergeSort (fun x y => decide (y.1 ≤ x.1))).take 5).Pairwise
            (fun x y => (decide (y.1 ≤ x.1)) = true) :=
          List.Pairwise.sublist (List.take_sublist _ _) hsorted_pw
        refine List.Pairwise.imp_of_mem ?_ hpw
        intro p p' hp hp' hle
        intro q₁ q₂ hq₁ hq₂
        obtain ⟨h1, _⟩ := hmem_scored p hp
        obtain ⟨h1', _⟩ := hmem_scored p' hp'
        obtain rfl := Option.some.inj (h1.symm.trans hq₁)
        obtain rfl := Option.some.inj (h1'.symm.trans hq₂)
        simpa using hle

/-- C8 counterexample: on a query context with no keys and a stored
experience with no keys the similarity is undefined — the source raises
`ZeroDivisionError` — rather than being `1.0` for equal key sets. -/
theorem similarity_empty_cex :
    simVal ∅ ∅ = none ∧
    get_similar_experiences ∅ { experiences := [expEmpty] } = .error () ∧
    ¬ (simVal ∅ ∅ = some 1) := by
  refine ⟨?_, ?_, ?_⟩
  · unfold simVal
    rw [if_pos (by decide)]
  · unfold get_similar_experiences
    rw [if_pos (by decide)]
  · intro h
    unfold simVal at h
    rw [if_pos (by decide)] at h
    exact Option.noConfusion h

/-- C8 witness: the Jaccard facts at concrete key sets and a successful
query on a one-experience memory. -/
theorem similarity_spec_witness :
    (simVal {"text", "input_type"} {"text", "input_type"} = some 1) ∧
    (simVal {"text", "input_type"} {"date"} = some 0) ∧
    ∃ l, get_similar_experiences ({"text", "input_type"} : Finset String) memW = .ok l ∧
      l.length ≤ 5 := by
  have h := similarity_spec ({"text", "input_type"} : Finset String) memW
  refine ⟨(h.1 {"text", "input_type"} {"text", "input_type"} (by decide)).1 rfl,
          (h.1 {"text", "input_type"} {"date"} (by decide)).2.1
            (Finset.disjoint_left.mpr (by decide)), ?_⟩
  obtain ⟨l, hl⟩ := get_similar_ok_of_nonempty {"text", "input_type"} memW
    ⟨"text", by decide⟩
  exact ⟨l, hl, (h.2 l hl).1⟩

/-- C9 (amended): `remember_experience` appends exactly one experience
record and increments by exactly one the counter under the pattern key
`goal ++ "_" ++ taskCount ++ "_tasks"` — in the successful-patterns
counter when the result succeeded and in the failed-patterns counter
otherwise — leaving every other key and the other counter unchanged. -/
theorem remember_spec (now : String) (ctxKeys : Finset String) (plan : Plan)
    (r : AgentResult) (m : AgentMemory) :
    (∃ exp, (remember_experience now ctxKeys plan r m).experiences =
      m.experiences ++ [exp]) ∧
    (r.success = true →
      (remember_experience now ctxKeys plan r m).successful_patterns
          (plan.goal ++ "_" ++ toString plan.tasks.length ++ "_tasks") =
        m.successful_patterns
          (plan.goal ++ "_" ++ toString plan.tasks.length ++ "_tasks") + 1 ∧
      (∀ k, k ≠ plan.goal ++ "_" ++ toString plan.tasks.length ++ "_tasks" →
        (remember_experience now ctxKeys plan r m).successful_patterns k =
          m.successful_patterns k) ∧
      (remember_experience now ctxKeys plan r m).failed_patterns =
        m.failed_patterns) ∧
    (r.success = false →
      (remember_experience now ctxKeys plan r m).failed_patterns
          (plan.goal ++ "_" ++ toString plan.tasks.length ++ "_tasks") =
        m.failed_patterns
          (plan.goal ++ "_" ++ toString plan.tasks.length ++ "_tasks") + 1 ∧
      (∀ k, k ≠ plan.goal ++ "_" ++ toString plan.tasks.length ++ "_tasks" →
        (remember_experience now ctxKeys plan r m).failed_patterns k =
          m.failed_patterns k) ∧
      (remember_experience now ctxKeys plan r m).successful_patterns =
        m.successful_patterns) := by
  refine ⟨?_, ?_, ?_⟩
  · unfold remember_experience
    cases hr : r.success
    · exact ⟨_, rfl⟩
    · exact ⟨_, rfl⟩
  · intro hs
    refine ⟨?_, ?_, ?_⟩
    · simp [remember_experience, hs]
    · intro k hk
      simp [remember_experience, hs, hk]
    · simp [remember_experience, hs]
  · intro hs
    refine ⟨?_, ?_, ?_⟩
    · simp [remember_experience, hs]
    · intro k hk
      simp [remember_experience, hs, hk]
    · simp [remember_experience, hs]

/-- C9 counterexample: for goal `"g"` and a 2-task plan the incremented
key is `"g_2_tasks"`, not the claimed `goal + "_" + taskCount` =
`"g_2"`, whose count stays at 0. -/
theorem remember_key_cex :
    (remember_experience "T" {"text"} planW okResult {}).successful_patterns "g_2" = 0 ∧
    (remember_experience "T" {"text"} planW okResult {}).successful_patterns
      "g_2_tasks" = 1 ∧
    ¬ ((remember_experience "T" {"text"} planW okResult {}).successful_patterns
        ("g" ++ "_" ++ toString planW.tasks.length) =
      ({} : AgentMemory).successful_patterns
        ("g" ++ "_" ++ toString planW.tasks.length) + 1) := by
  refine ⟨rfl, rfl, ?_⟩
  intro h
  exact absurd h (by decide)

/-- C9 witness: the amended theorem at a concrete successful result. -/
theorem remember_spec_witness :
    (remember_experience "T" {"text"} planW okResult {}).successful_patterns
        "g_2_tasks" = ({} : AgentMemory).successful_patterns "g_2_tasks" + 1 ∧
    (remember_experience "T" {"text"} planW okResult {}).failed_patterns =
      ({} : AgentMemory).failed_patterns := by
  have h := (remember_spec "T" {"text"} planW okResult {}).2.1 rfl
  exact ⟨h.1, h.2.2⟩

/-- A true prefix stays a prefix under appending on the right. -/
theorem startsWithPy_append (a b p : List Char) (h : startsWithPy a p = true) :
    startsWithPy (a ++ b) p = true := by
  induction p generalizing a with
  | nil =>
    cases a ++ b with
    | nil => rfl
    | cons c cs => rfl
  | cons c cs ih =>
    cases a with
    | nil => exact absurd h (by simp [startsWithPy])
    | cons d ds =>
      simp only [List.cons_append, startsWithPy, Bool.and_eq_true] at h ⊢
      exact ⟨h.1, ih ds h.2⟩

/-- Appending on the right preserves the `"Error"` prefix. -/
theorem strStartsWith_error_append (a b : String)
    (h : strStartsWith a "Error" = true) :
    strStartsWith (a ++ b) "Error" = true := by
  unfold strStartsWith at h ⊢
  rw [show (a ++ b).data = a.data ++ b.data from rfl]
  exact startsWithPy_append _ _ _ h

/-- C10: `execute_tool` never raises; an unregistered name yields the
fixed `Error: Tool '<name>' not found` string, a raising tool yields
`Error executing tool <name>: <e>` — both starting with `"Error"` — and
a returned string passes through unchanged, so an `Error`-prefixed
string is the only failure channel at the registry boundary. -/
theorem executeTool_spec (tools : ToolMap) (name : String)
    (args : List (String × J)) :
    ∃ s, execute_tool tools name args = .ok s ∧
      (tools name = none →
        s = "Error: Tool " ++ quoteChar ++ name ++ quoteChar ++ " not found" ∧
        strStartsWith s "Error" = true) ∧
      (∀ exec e, tools name = some exec → exec args = .error e →
        s = "Error executing tool " ++ name ++ ": " ++ e ∧
        strStartsWith s "Error" = true) ∧
      (∀ exec r, tools name = some exec → exec args = .ok r → s = r) := by
  cases ht : tools name with
  | none =>
    refine ⟨"Error: Tool " ++ quoteChar ++ name ++ quoteChar ++ " not found",
      ?_, ?_, ?_, ?_⟩
    · unfold execute_tool
      rw [ht]
    · intro _
      refine ⟨rfl, ?_⟩
      exact strStartsWith_error_append _ _ (strStartsWith_error_append _ _
        (strStartsWith_error_append _ _ rfl))
    · intro ex e hex
      exact absurd hex (by simp)
    · intro ex r hex
      exact absurd hex (by simp)
  | some exec =>
    cases hr : exec args with
    | ok r =>
      refine ⟨r, ?_, ?_, ?_, ?_⟩
      · unfold execute_tool
        rw [ht]
        dsimp only
        rw [hr]
      · intro h
        exact absurd h (by simp)
      · intro ex e hex herr
        obtain rfl := Option.some.inj hex
        rw [hr] at herr
        exact absurd herr (by simp)
      · intro ex r' hex hok
        obtain rfl := Option.some.inj hex
        rw [hr] at hok
        exact Except.ok.inj hok
    | error e =>
      refine ⟨"Error executing tool " ++ name ++ ": " ++ e, ?_, ?_, ?_, ?_⟩
      · unfold execute_tool
        rw [ht]
        dsimp only
        rw [hr]
      · intro h
        exact absurd h (by simp)
      · intro ex e' hex herr
        obtain rfl := Option.some.inj hex
        rw [hr] at herr
        obtain rfl := (Except.error.inj herr)
        refine ⟨rfl, ?_⟩
        exact strStartsWith_error_append _ _ (strStartsWith_error_append _ _
          (strStartsWith_error_append _ _ rfl))
      · intro ex r hex hok
        obtain rfl := Option.some.inj hex
        rw [hr] at hok
        exact absurd hok (by simp)

/-- C10 witness: a missing tool and a raising tool at the concrete
registry. -/
theorem executeTool_spec_witness :
    execute_tool toolsW "missing" [] =
      .ok ("Error: Tool " ++ quoteChar ++ "missing" ++ quoteChar ++ " not found") ∧
    execute_tool toolsW "bad" [] = .ok ("Error executing tool bad: boom") ∧
    strStartsWith "Error executing tool bad: boom" "Error" = true := by
  obtain ⟨s1, hs1, hnone1, _, _⟩ := executeTool_spec toolsW "missing" []
  obtain ⟨hval1, _⟩ := hnone1 rfl
  obtain ⟨s2, hs2, _, herr2, _⟩ := executeTool_spec toolsW "bad" []
  obtain ⟨hval2, hsw2⟩ := herr2 (fun _ => .error "boom") "boom" rfl rfl
  subst hval1
  subst hval2
  exact ⟨hs1, hs2, hsw2⟩

end Grocery
